import Mathlib

/-!
Verification of the burstcache middleware (`cache.go`, `keymaker.go`).

The development shallowly embeds the cache's data model and operations:

* `ResponseCacher` with its recorder operations (`writeHeader`, `write`,
  `flush`, `Serve`) mirrors the `ResponseCacher` type of `cache.go`;
  `http.Header` is modelled as an association list with unique names
  (`hset` / `hadd` / `hlookup` mirror `Header().Set` / `Add` / lookup;
  MIME-name canonicalisation is dropped, which is harmless because capture
  and replay use the same names).  HTTP status codes are Go `int`s,
  modelled as `Int`; body bytes are modelled as `List Nat`.
* The cache store `map[string]*ResponseCacher` is modelled as
  `Store := String → Option (Option ResponseCacher)`: the outer `Option`
  is key presence in the map, the inner `Option` is pointer nil-ness
  (`kill` assigns `nil`, it does not `delete`).  The store operations
  `swap`, `stale`, `kill`, `regen`, `serve`, `status` are translated one
  to one from `cache.go`; operations that dereference a missing or nil
  entry (a Go panic) return `none`.
* The request controller `Cache.Chain` and the two-phase decay goroutine
  of `Cache.regenerate` are embedded twice:
  - a *serialized* semantics (`chainStep`, `ttlFire`, `ttdFire`,
    `runSeq`, `SeqReach`) in which each lock-protected block and the code
    between two consecutive blocks of one goroutine runs without
    interleaving; and
  - an *interleaved* semantics (`threadStep` / `stepSys` / `runSys`), a
    small-step machine whose atomic actions are exactly the individual
    lock-protected store operations of the source, and whose schedules
    expose the check-then-act races present in `Chain` and in the decay
    goroutine.
* The downstream handler (`next http.Handler`) only sees the
  `http.ResponseWriter` interface of the recorder, so it is modelled as a
  list of writer operations `WOp` applied to the fresh recorder.
-/

/-- Association-list model of Go's `http.Header` map: header name to list
of values. -/
abbrev HeaderMap : Type := List (String × List String)

/-- Model of `http.Header.Set`: replace the binding of `n` by the single
value `v` (appending a fresh binding when `n` is absent). -/
def hset : HeaderMap → String → String → HeaderMap
  | [], n, v => [(n, [v])]
  | p :: t, n, v => if p.1 = n then (n, [v]) :: t else p :: hset t n v

/-- Model of `http.Header.Add`: append `v` to the values of `n`
(appending a fresh binding when `n` is absent). -/
def hadd : HeaderMap → String → String → HeaderMap
  | [], n, v => [(n, [v])]
  | p :: t, n, v => if p.1 = n then (p.1, p.2 ++ [v]) :: t else p :: hadd t n v

/-- Lookup of the value list bound to a header name. -/
def hlookup : HeaderMap → String → Option (List String)
  | [], _ => none
  | p :: t, n => if p.1 = n then some p.2 else hlookup t n

/-- The recording response writer of `cache.go` (`ResponseCacher`):
captured status code, headers and body, the `Done` flag, the private
`wroteHeader` flag, and the lifecycle fields `id`, `fresh`, `regen`. -/
structure ResponseCacher where
  Code : Int
  Head : HeaderMap
  Body : List Nat
  Done : Bool
  wroteHeader : Bool
  id : Nat
  fresh : Bool
  regen : Bool
  deriving DecidableEq

/-- `NewResponseCacher` of `cache.go`: empty header map, empty body,
code 0, the given id, `fresh` set, everything else zero-valued. -/
def NewResponseCacher (id : Nat) : ResponseCacher :=
  { Code := 0, Head := [], Body := [], Done := false, wroteHeader := false,
    id := id, fresh := true, regen := false }

/-- `ResponseCacher.WriteHeader`: the code is stored only if no header
was written yet; `wroteHeader` is set in any case. -/
def ResponseCacher.writeHeader (c : ResponseCacher) (code : Int) : ResponseCacher :=
  { c with Code := if c.wroteHeader then c.Code else code, wroteHeader := true }

/-- `ResponseCacher.Write`: an implicit `WriteHeader(200)` on the first
write, then the bytes are appended to the body.  The Go method always
returns `(len(buf), nil)`; the returned `Nat` is that byte count, and the
absent error is the always-successful outcome. -/
def ResponseCacher.write (c : ResponseCacher) (buf : List Nat) : ResponseCacher × Nat :=
  let c := if c.wroteHeader then c else c.writeHeader 200
  ({ c with Body := c.Body ++ buf }, buf.length)

/-- `ResponseCacher.Flush`: implicit `WriteHeader(200)` if nothing was
written yet, then `Done` is set. -/
def ResponseCacher.flush (c : ResponseCacher) : ResponseCacher :=
  let c := if c.wroteHeader then c else c.writeHeader 200
  { c with Done := true }

/-- A live `http.ResponseWriter` target, recording everything the cache
writes to it: its header map, every `WriteHeader` call in order, and the
accumulated body bytes. -/
structure LiveWriter where
  head : HeaderMap
  codes : List Int
  body : List Nat
  deriving DecidableEq

/-- Header mutation on the live target (`w.Header().Set`). -/
def LiveWriter.setHeader (w : LiveWriter) (n v : String) : LiveWriter :=
  { w with head := hset w.head n v }

/-- Status-code write on the live target (`w.WriteHeader`). -/
def LiveWriter.putCode (w : LiveWriter) (code : Int) : LiveWriter :=
  { w with codes := w.codes ++ [code] }

/-- Body write on the live target (`w.Write`). -/
def LiveWriter.putBody (w : LiveWriter) (bs : List Nat) : LiveWriter :=
  { w with body := w.body ++ bs }

/-- An empty live target. -/
def w0 : LiveWriter := { head := [], codes := [], body := [] }

/-- One iteration of the header-replay loop of `ResponseCacher.Serve`:
`if len(val) > 0 { w.Header().Set(key, val[0]) }`. -/
def serveHeaderStep (w : LiveWriter) (p : String × List String) : LiveWriter :=
  match p.2 with
  | [] => w
  | v :: _ => w.setHeader p.1 v

/-- `ResponseCacher.Serve` of `cache.go`: for every captured header with
at least one value, `Set` its *first* value on the target; when `mark` is
set, `Set` the `X-From-BurstCache` header; replay the captured status
code; finally `fmt.Fprintln` the captured body, which writes the body
bytes followed by a newline (byte 10). -/
def ResponseCacher.Serve (c : ResponseCacher) (w : LiveWriter) (mark : Bool) : LiveWriter :=
  let w := c.Head.foldl serveHeaderStep w
  let w := if mark then w.setHeader "X-From-BurstCache" "1" else w
  let w := w.putCode c.Code
  w.putBody (c.Body ++ [10])

/-- One operation a downstream handler can perform on the
`http.ResponseWriter` interface of the recorder. -/
inductive WOp
  | wHeader (code : Int)
  | wWrite (buf : List Nat)
  | wFlush
  | wSetHeader (n v : String)
  | wAddHeader (n v : String)
  deriving DecidableEq

/-- Apply one writer operation to a recorder. -/
def applyWOp (c : ResponseCacher) : WOp → ResponseCacher
  | .wHeader n => c.writeHeader n
  | .wWrite bs => (c.write bs).1
  | .wFlush => c.flush
  | .wSetHeader n v => { c with Head := hset c.Head n v }
  | .wAddHeader n v => { c with Head := hadd c.Head n v }

/-- A downstream handler invocation (`next.ServeHTTP(cache, r)`): the
handler's interaction with the recorder, as the fold of its writer
operations. -/
def runWOps (l : List WOp) (c : ResponseCacher) : ResponseCacher :=
  l.foldl applyWOp c

/-- The cache store `map[string]*ResponseCacher`: the outer `Option` is
presence of the key in the map, the inner `Option` is nil-ness of the
stored pointer. -/
def Store : Type := String → Option (Option ResponseCacher)

/-- The empty map the factory function starts from. -/
def emptyStore : Store := fun _ => none

/-- The live entry visible under a key: `none` both when the key is
absent and when it is bound to `nil` (a Go lookup of either yields a nil
pointer). -/
def view (st : Store) (k : String) : Option ResponseCacher :=
  match st k with
  | some (some c) => some c
  | _ => none

/-- `Cache.swap`: unconditionally bind the key to the new entry. -/
def swap (st : Store) (k : String) (c : ResponseCacher) : Store :=
  fun x => if x = k then some (some c) else st x

/-- `Cache.stale`: `c.caches[key].fresh = false`; dereferencing a missing
or nil entry is a Go panic, modelled as `none`. -/
def stale (st : Store) (k : String) : Option Store :=
  match view st k with
  | some c => some (fun x => if x = k then some (some { c with fresh := false }) else st x)
  | none => none

/-- `Cache.kill`: `c.caches[key] = nil` — the key is bound to the nil
pointer (the key itself stays in the map; this is not `delete`). -/
def kill (st : Store) (k : String) : Store :=
  fun x => if x = k then some none else st x

/-- `Cache.regen`: `c.caches[key].regen = true`; nil dereference is a Go
panic, modelled as `none`. -/
def regen (st : Store) (k : String) : Option Store :=
  match view st k with
  | some c => some (fun x => if x = k then some (some { c with regen := true }) else st x)
  | none => none

/-- `Cache.status`: `(exists, id, fresh, regen)`, with the zero sentinel
for a missing or nil entry. -/
def status (st : Store) (k : String) : Bool × Nat × Bool × Bool :=
  match view st k with
  | some c => (true, c.id, c.fresh, c.regen)
  | none => (false, 0, false, false)

/-- `Cache.serve`: replay the entry onto the target; looking up a missing
or killed entry panics in Go, modelled as `none`. -/
def serve (st : Store) (k : String) (w : LiveWriter) (mark : Bool) : Option LiveWriter :=
  (view st k).map (fun c => c.Serve w mark)

/-- Modelled from the spec: true deletion of the association
(`delete(m, key)`), which is what "removes the entry for `key` entirely"
denotes; used to compare `kill` against the spec's wording. -/
def erase (st : Store) (k : String) : Store :=
  fun x => if x = k then none else st x

/-- The result of one serialized request through `Cache.Chain`: the store
after the request, the served (replayed) target, the number of
synchronous downstream invocations, the asynchronous regenerations
launched by the request (handler and id, still pending), and the decay
timers scheduled synchronously (key and id). -/
structure StepOut where
  store : Store
  served : Option LiveWriter
  syncInvoked : Nat
  launches : List (List WOp × Nat)
  decays : List (String × Nat)

/-- `Cache.regenerate`, run to completion without interleaving: a fresh
recorder with the new instance id, the downstream invocation captured
into it, the `swap`, and the scheduled two-phase decay timer.  The live
target `w` is passed, as in the source, and returned untouched: the
source never references it. -/
def regenerate (next : List WOp) (id : Nat) (st : Store) (k : String) (w : LiveWriter) :
    Store × LiveWriter × List (String × Nat) :=
  let cache := runWOps next (NewResponseCacher id)
  (swap st k cache, w, [(k, id)])

/-- One request through `Cache.Chain` under the serialized semantics: the
status check, the three-way branch of the source, and the final serve.
An asynchronous regeneration is recorded as a pending launch, not yet
executed (the scenario of interest is "before regeneration completes"). -/
def chainStep (next : List WOp) (id : Nat) (st : Store) (k : String) (w : LiveWriter) :
    StepOut :=
  let s := status st k
  if s.1 = false then
    let r := regenerate next id st k w
    { store := r.1, served := serve r.1 k r.2.1 false, syncInvoked := 1,
      launches := [], decays := r.2.2 }
  else if s.2.2.1 = false ∧ s.2.2.2 = false then
    let st1 := (regen st k).getD st
    { store := st1, served := serve st1 k w true, syncInvoked := 0,
      launches := [(next, id)], decays := [] }
  else
    { store := st, served := serve st k w true, syncInvoked := 0,
      launches := [], decays := [] }

/-- Serialized processing of a list of requests (each with its handler,
its regeneration id and its live target) against one key, accumulating
the synchronous invocations and the launched regenerations. -/
def runSeq : List (List WOp × Nat × LiveWriter) → Store → String → Store × Nat × Nat
  | [], st, _ => (st, 0, 0)
  | (nx, id, w) :: rest, st, k =>
    let out := chainStep nx id st k w
    let r := runSeq rest out.store k
    (r.1, out.syncInvoked + r.2.1, out.launches.length + r.2.2)

/-- The TTL phase of the decay goroutine (lines 112–118 of `cache.go`),
with the status check and the `stale` call running without interleaving:
if the entry exists, is fresh and still carries the timer's id, mark it
stale. -/
def ttlFire (st : Store) (k : String) (id : Nat) : Store :=
  let s := status st k
  if s.1 = true ∧ s.2.2.1 = true ∧ s.2.1 = id then (stale st k).getD st else st

/-- The TTD phase of the decay goroutine (lines 121–127 of `cache.go`),
serialized: if the entry exists, is stale, is not regenerating and still
carries the timer's id, kill it. -/
def ttdFire (st : Store) (k : String) (id : Nat) : Store :=
  let s := status st k
  if s.1 = true ∧ s.2.2.1 = false ∧ s.2.2.2 = false ∧ s.2.1 = id then kill st k else st

/-- Stores reachable from the empty map under the serialized semantics:
requests through `Chain`, completion of a pending asynchronous
regeneration, and the two decay phases. -/
inductive SeqReach : Store → Prop
  | init : SeqReach emptyStore
  | step_chain (next : List WOp) (id : Nat) (k : String) (w : LiveWriter) {st : Store} :
      SeqReach st → SeqReach (chainStep next id st k w).store
  | step_regen_done (next : List WOp) (id : Nat) (k : String) (w : LiveWriter) {st : Store} :
      SeqReach st → SeqReach (regenerate next id st k w).1
  | step_ttl (k : String) (id : Nat) {st : Store} :
      SeqReach st → SeqReach (ttlFire st k id)
  | step_ttd (k : String) (id : Nat) {st : Store} :
      SeqReach st → SeqReach (ttdFire st k id)

/-- The lifecycle invariant of the data model: a regenerating entry is
stale. -/
def InvFR (st : Store) : Prop :=
  ∀ k c, view st k = some c → c.regen = true → c.fresh = false

/-- Program counter of a request goroutine in `Cache.Chain`. -/
inductive RPC
  | rStart | rMissSwap | rMissServe | rMark | rLaunch | rServe | rDone
  deriving DecidableEq

/-- Program counter of an asynchronous `Cache.regenerate` goroutine. -/
inductive GPC
  | gSwap | gDone
  deriving DecidableEq

/-- Program counter of a two-phase decay goroutine. -/
inductive DPC
  | dTtlCheck | dTtlAct | dTtdCheck | dTtdAct | dDone
  deriving DecidableEq

/-- A goroutine of the interleaved machine, restricted to a single cache
key (every store operation of the source is per-key, so goroutines of
distinct keys do not interact): a request handler with its downstream
handler and the id its regeneration will use, a pending asynchronous
regeneration body, or a decay timer carrying its generation id. -/
inductive Thread
  | req (next : List WOp) (rid : Nat) (pc : RPC)
  | regenT (next : List WOp) (rid : Nat) (pc : GPC)
  | decayT (rid : Nat) (pc : DPC)
  deriving DecidableEq

/-- The single-key slice of the store, as in `Store` at one key. -/
def KStore : Type := Option (Option ResponseCacher)

instance : DecidableEq KStore := by
  unfold KStore; infer_instance

/-- The live entry of the single-key store. -/
def kview : KStore → Option ResponseCacher
  | some (some c) => some c
  | _ => none

/-- The effect of one atomic action: the store afterwards, the stepped
goroutine, the goroutines it spawned, and how many downstream
invocations, successful serves and panics it contributed. -/
structure Eff where
  store : KStore
  thread : Thread
  spawned : List Thread
  dInvoked : Nat
  dServed : Nat
  dPanics : Nat

/-- One atomic action of a goroutine.  Atomicity is exactly the lock
granularity of the source: each of `status`, `swap`, `stale`, `kill`,
`regen` and `serve` holds the lock for the duration of one action, and
anything may interleave between two actions of the same goroutine.  A
request at `rStart` performs the `status` read and branches as `Chain`
does; `rMissSwap` is the synchronous regeneration (downstream invocation,
`swap`, decay timer spawn); `rMark` is `c.regen(key)`; `rLaunch` spawns
the asynchronous regeneration; the serve states perform `c.serve`, and a
nil-entry dereference is a panic that terminates the goroutine.  A decay
timer performs its `status` check and its action (`stale` or `kill`) as
two separate atomic actions, exactly as in lines 112–127 of the
source. -/
def threadStep (st : KStore) : Thread → Eff
  | .req nx rid pc =>
    match pc with
    | .rStart =>
      match kview st with
      | some c =>
        if c.fresh = false ∧ c.regen = false then
          { store := st, thread := .req nx rid .rMark, spawned := [],
            dInvoked := 0, dServed := 0, dPanics := 0 }
        else
          { store := st, thread := .req nx rid .rServe, spawned := [],
            dInvoked := 0, dServed := 0, dPanics := 0 }
      | none =>
        { store := st, thread := .req nx rid .rMissSwap, spawned := [],
          dInvoked := 0, dServed := 0, dPanics := 0 }
    | .rMissSwap =>
      { store := some (some (runWOps nx (NewResponseCacher rid))),
        thread := .req nx rid .rMissServe, spawned := [.decayT rid .dTtlCheck],
        dInvoked := 1, dServed := 0, dPanics := 0 }
    | .rMissServe =>
      match kview st with
      | some _ =>
        { store := st, thread := .req nx rid .rDone, spawned := [],
          dInvoked := 0, dServed := 1, dPanics := 0 }
      | none =>
        { store := st, thread := .req nx rid .rDone, spawned := [],
          dInvoked := 0, dServed := 0, dPanics := 1 }
    | .rMark =>
      match kview st with
      | some c =>
        { store := some (some { c with regen := true }),
          thread := .req nx rid .rLaunch, spawned := [],
          dInvoked := 0, dServed := 0, dPanics := 0 }
      | none =>
        { store := st, thread := .req nx rid .rDone, spawned := [],
          dInvoked := 0, dServed := 0, dPanics := 1 }
    | .rLaunch =>
      { store := st, thread := .req nx rid .rServe,
        spawned := [.regenT nx rid .gSwap],
        dInvoked := 0, dServed := 0, dPanics := 0 }
    | .rServe =>
      match kview st with
      | some _ =>
        { store := st, thread := .req nx rid .rDone, spawned := [],
          dInvoked := 0, dServed := 1, dPanics := 0 }
      | none =>
        { store := st, thread := .req nx rid .rDone, spawned := [],
          dInvoked := 0, dServed := 0, dPanics := 1 }
    | .rDone =>
      { store := st, thread := .req nx rid .rDone, spawned := [],
        dInvoked := 0, dServed := 0, dPanics := 0 }
  | .regenT nx rid pc =>
    match pc with
    | .gSwap =>
      { store := some (some (runWOps nx (NewResponseCacher rid))),
        thread := .regenT nx rid .gDone, spawned := [.decayT rid .dTtlCheck],
        dInvoked := 1, dServed := 0, dPanics := 0 }
    | .gDone =>
      { store := st, thread := .regenT nx rid .gDone, spawned := [],
        dInvoked := 0, dServed := 0, dPanics := 0 }
  | .decayT rid pc =>
    match pc with
    | .dTtlCheck =>
      match kview st with
      | some c =>
        if c.fresh = true ∧ c.id = rid then
          { store := st, thread := .decayT rid .dTtlAct, spawned := [],
            dInvoked := 0, dServed := 0, dPanics := 0 }
        else
          { store := st, thread := .decayT rid .dTtdCheck, spawned := [],
            dInvoked := 0, dServed := 0, dPanics := 0 }
      | none =>
        { store := st, thread := .decayT rid .dTtdCheck, spawned := [],
          dInvoked := 0, dServed := 0, dPanics := 0 }
    | .dTtlAct =>
      match kview st with
      | some c =>
        { store := some (some { c with fresh := false }),
          thread := .decayT rid .dTtdCheck, spawned := [],
          dInvoked := 0, dServed := 0, dPanics := 0 }
      | none =>
        { store := st, thread := .decayT rid .dDone, spawned := [],
          dInvoked := 0, dServed := 0, dPanics := 1 }
    | .dTtdCheck =>
      match kview st with
      | some c =>
        if c.fresh = false ∧ c.regen = false ∧ c.id = rid then
          { store := st, thread := .decayT rid .dTtdAct, spawned := [],
            dInvoked := 0, dServed := 0, dPanics := 0 }
        else
          { store := st, thread := .decayT rid .dDone, spawned := [],
            dInvoked := 0, dServed := 0, dPanics := 0 }
      | none =>
        { store := st, thread := .decayT rid .dDone, spawned := [],
          dInvoked := 0, dServed := 0, dPanics := 0 }
    | .dTtdAct =>
      { store := some none, thread := .decayT rid .dDone, spawned := [],
        dInvoked := 0, dServed := 0, dPanics := 0 }
    | .dDone =>
      { store := st, thread := .decayT rid .dDone, spawned := [],
        dInvoked := 0, dServed := 0, dPanics := 0 }

/-- State of the interleaved machine: the single-key store, the pool of
goroutines, and the event counters. -/
structure Sys where
  store : KStore
  threads : List Thread
  invoked : Nat
  servedOk : Nat
  panics : Nat
  deriving DecidableEq

/-- Run one atomic action of the goroutine at position `i` (out-of-range
indices are no-ops); spawned goroutines are appended to the pool, so
existing positions are stable. -/
def stepSys (s : Sys) (i : Nat) : Sys :=
  match s.threads[i]? with
  | none => s
  | some t =>
    let e := threadStep s.store t
    { store := e.store, threads := (s.threads.set i e.thread) ++ e.spawned,
      invoked := s.invoked + e.dInvoked, servedOk := s.servedOk + e.dServed,
      panics := s.panics + e.dPanics }

/-- Run the machine under an explicit schedule. -/
def runSys (s : Sys) (sched : List Nat) : Sys :=
  sched.foldl stepSys s

/-- The initial machine of the counterexample scenarios: the key is not
yet cached, and three requests for it are in flight — the first will fill
the cache, the other two arrive once the entry has gone stale. -/
def sysInit : Sys :=
  { store := none,
    threads := [.req [] 1 .rStart, .req [] 2 .rStart, .req [] 3 .rStart],
    invoked := 0, servedOk := 0, panics := 0 }

theorem view_swap_self (st : Store) (k : String) (c : ResponseCacher) :
    view (swap st k c) k = some c := by
  simp [view, swap]

theorem view_swap_ne (st : Store) (k x : String) (c : ResponseCacher) (h : x ≠ k) :
    view (swap st k c) x = view st x := by
  simp [view, swap, h]

theorem view_kill_self (st : Store) (k : String) : view (kill st k) k = none := by
  simp [view, kill]

theorem view_kill_ne (st : Store) (k x : String) (h : x ≠ k) :
    view (kill st k) x = view st x := by
  simp [view, kill, h]

theorem status_of_view_some {st : Store} {k : String} {c : ResponseCacher}
    (h : view st k = some c) : status st k = (true, c.id, c.fresh, c.regen) := by
  simp [status, h]

theorem status_of_view_none {st : Store} {k : String}
    (h : view st k = none) : status st k = (false, 0, false, false) := by
  simp [status, h]

theorem chainStep_miss (next : List WOp) (id : Nat) (st : Store) (k : String)
    (w : LiveWriter) (h : view st k = none) :
    chainStep next id st k w =
      { store := swap st k (runWOps next (NewResponseCacher id)),
        served := some ((runWOps next (NewResponseCacher id)).Serve w false),
        syncInvoked := 1, launches := [], decays := [(k, id)] } := by
  unfold chainStep regenerate
  simp [status, h, serve, view_swap_self]

theorem chainStep_stale (next : List WOp) (id : Nat) (st : Store) (k : String)
    (w : LiveWriter) {c : ResponseCacher} (h : view st k = some c)
    (hf : c.fresh = false) (hr : c.regen = false) :
    chainStep next id st k w =
      { store := swap st k { c with regen := true },
        served := some (ResponseCacher.Serve { c with regen := true } w true),
        syncInvoked := 0, launches := [(next, id)], decays := [] } := by
  have hregen : regen st k = some (swap st k { c with regen := true }) := by
    unfold regen swap
    rw [h]
  unfold chainStep
  rw [status_of_view_some h]
  simp [hf, hr, hregen, serve, view_swap_self]

theorem chainStep_hit (next : List WOp) (id : Nat) (st : Store) (k : String)
    (w : LiveWriter) {c : ResponseCacher} (h : view st k = some c)
    (hfr : c.fresh = true ∨ c.regen = true) :
    chainStep next id st k w =
      { store := st, served := some (c.Serve w true),
        syncInvoked := 0, launches := [], decays := [] } := by
  unfold chainStep
  rw [status_of_view_some h]
  rcases hfr with hf | hr
  · simp [hf, serve, h]
  · simp [hr, serve, h]

theorem applyWOp_flags (c : ResponseCacher) (o : WOp) :
    (applyWOp c o).fresh = c.fresh ∧ (applyWOp c o).regen = c.regen ∧
    (applyWOp c o).id = c.id := by
  cases o <;>
    simp [applyWOp, ResponseCacher.write, ResponseCacher.writeHeader,
      ResponseCacher.flush] <;>
    split <;> simp [ResponseCacher.writeHeader]

theorem runWOps_flags (l : List WOp) (c : ResponseCacher) :
    (runWOps l c).fresh = c.fresh ∧ (runWOps l c).regen = c.regen ∧
    (runWOps l c).id = c.id := by
  induction l generalizing c with
  | nil => simp [runWOps]
  | cons o t ih =>
    have h1 := applyWOp_flags c o
    have h2 := ih (applyWOp c o)
    simp only [runWOps, List.foldl_cons] at h2 ⊢
    exact ⟨h2.1.trans h1.1, h2.2.1.trans h1.2.1, h2.2.2.trans h1.2.2⟩

theorem stale_of_view_some {st : Store} {k : String} {c : ResponseCacher}
    (h : view st k = some c) :
    stale st k = some (swap st k { c with fresh := false }) := by
  unfold stale swap
  rw [h]

theorem ttlFire_cases (st : Store) (k : String) (id : Nat) :
    ttlFire st k id = st ∨
    ∃ c, view st k = some c ∧ c.fresh = true ∧ c.id = id ∧
      ttlFire st k id = swap st k { c with fresh := false } := by
  unfold ttlFire
  cases hv : view st k with
  | none => rw [status_of_view_none hv]; left; simp
  | some c =>
    rw [status_of_view_some hv]
    by_cases hf : c.fresh = true
    · by_cases hid : c.id = id
      · right
        exact ⟨c, rfl, hf, hid, by simp [hf, hid, stale_of_view_some hv]⟩
      · left; simp [hid]
    · left; simp [hf]

theorem ttdFire_cases (st : Store) (k : String) (id : Nat) :
    ttdFire st k id = st ∨
    ∃ c, view st k = some c ∧ c.fresh = false ∧ c.regen = false ∧ c.id = id ∧
      ttdFire st k id = kill st k := by
  unfold ttdFire
  cases hv : view st k with
  | none => rw [status_of_view_none hv]; left; simp
  | some c =>
    rw [status_of_view_some hv]
    by_cases hf : c.fresh = false
    · by_cases hr : c.regen = false
      · by_cases hid : c.id = id
        · right; exact ⟨c, rfl, hf, hr, hid, by simp [hf, hr, hid]⟩
        · left; simp [hid]
      · left; simp [hr]
    · left; simp [hf]

/-- C3: for every inbound request whose key has no live entry (`status`
reports `exists=false`), the controller synchronously performs exactly
one downstream invocation capturing into a fresh recorder, installs the
captured entry via `swap`, schedules the two-phase decay for this
instance, and serves the now-populated entry to that requester without
the cached marker. -/
theorem c3_first_request_fill (next : List WOp) (id : Nat) (st : Store)
    (k : String) (w : LiveWriter) (h : (status st k).1 = false) :
    (chainStep next id st k w).syncInvoked = 1 ∧
    (chainStep next id st k w).launches = [] ∧
    (chainStep next id st k w).store = swap st k (runWOps next (NewResponseCacher id)) ∧
    (chainStep next id st k w).decays = [(k, id)] ∧
    (chainStep next id st k w).served =
      some ((runWOps next (NewResponseCacher id)).Serve w false) := by
  have hv : view st k = none := by
    cases hv : view st k with
    | none => rfl
    | some c => rw [status_of_view_some hv] at h; simp at h
  rw [chainStep_miss next id st k w hv]
  exact ⟨rfl, rfl, rfl, rfl, rfl⟩

/-- Witness for C3 at the empty store. -/
theorem c3_first_request_fill_witness :
    (chainStep [] 5 emptyStore "k" w0).syncInvoked = 1 ∧
    (chainStep [] 5 emptyStore "k" w0).launches = [] ∧
    (chainStep [] 5 emptyStore "k" w0).store =
      swap emptyStore "k" (runWOps [] (NewResponseCacher 5)) ∧
    (chainStep [] 5 emptyStore "k" w0).decays = [("k", 5)] ∧
    (chainStep [] 5 emptyStore "k" w0).served =
      some ((runWOps [] (NewResponseCacher 5)).Serve w0 false) :=
  c3_first_request_fill [] 5 emptyStore "k" w0 rfl

/-- C10: `regenerate` never writes to the live response writer it is
passed — the live target comes back untouched, and the target a
requester sees is mutated solely by the separate `Serve` replay the
controller performs. -/
theorem c10_regenerate_writer_frame (next : List WOp) (id : Nat) (st : Store)
    (k : String) (w : LiveWriter) :
    (regenerate next id st k w).2.1 = w ∧
    ∃ c mark, (chainStep next id st k w).served = some (ResponseCacher.Serve c w mark) := by
  refine ⟨rfl, ?_⟩
  cases hv : view st k with
  | none =>
    exact ⟨_, false, by rw [chainStep_miss next id st k w hv]⟩
  | some c =>
    cases hf : c.fresh with
    | true => exact ⟨c, true, by rw [chainStep_hit next id st k w hv (Or.inl hf)]⟩
    | false =>
      cases hr : c.regen with
      | true => exact ⟨c, true, by rw [chainStep_hit next id st k w hv (Or.inr hr)]⟩
      | false => exact ⟨_, true, by rw [chainStep_stale next id st k w hv hf hr]⟩

/-- C7, amended: when `status` reports an existing entry, `serve`
completes without fault and replays that entry; and in the serialized
controller every request path serves an existing entry, so the failure
branch is unreachable there.  (Under interleaving a decay `kill` between
a request's status check and its serve can reach the failure branch —
see the counterexample.) -/
theorem c7_serve_precondition :
    (∀ (st : Store) (k : String) (w : LiveWriter) (mark : Bool),
        (status st k).1 = true →
        ∃ c, view st k = some c ∧ serve st k w mark = some (c.Serve w mark)) ∧
    (∀ (next : List WOp) (id : Nat) (st : Store) (k : String) (w : LiveWriter),
        (chainStep next id st k w).served.isSome = true) := by
  constructor
  · intro st k w mark h
    cases hv : view st k with
    | none => rw [status_of_view_none hv] at h; simp at h
    | some c => exact ⟨c, rfl, by simp [serve, hv]⟩
  · intro next id st k w
    cases hv : view st k with
    | none => rw [chainStep_miss next id st k w hv]; rfl
    | some c =>
      cases hf : c.fresh with
      | true => rw [chainStep_hit next id st k w hv (Or.inl hf)]; rfl
      | false =>
        cases hr : c.regen with
        | true => rw [chainStep_hit next id st k w hv (Or.inr hr)]; rfl
        | false => rw [chainStep_stale next id st k w hv hf hr]; rfl

/-- Witness for C7 on a store holding one entry. -/
theorem c7_serve_precondition_witness :
    ∃ c, view (swap emptyStore "k" (NewResponseCacher 1)) "k" = some c ∧
      serve (swap emptyStore "k" (NewResponseCacher 1)) "k" w0 true =
        some (c.Serve w0 true) :=
  c7_serve_precondition.1 (swap emptyStore "k" (NewResponseCacher 1)) "k" w0 true
    (by rw [status_of_view_some (view_swap_self emptyStore "k" (NewResponseCacher 1))])

/-- Counterexample for C7 as stated: at op-level interleaving, a decay
timer whose TTD check passed can `kill` the entry after a request's
status check confirmed existence and before that request's `serve`; the
serve then dereferences a nil entry (a Go panic), so the failure branch
of `serve` is reachable in the controller's request path. -/
theorem c7_counterexample :
    (runSys sysInit [0, 0, 0, 3, 3, 3, 1, 1, 1, 3]).panics = 0 ∧
    (runSys sysInit [0, 0, 0, 3, 3, 3, 1, 1, 1, 3]).store = some none ∧
    (runSys sysInit [0, 0, 0, 3, 3, 3, 1, 1, 1, 3]).threads[1]? =
      some (.req [] 2 .rServe) ∧
    (runSys sysInit [0, 0, 0, 3, 3, 3, 1, 1, 1, 3, 1]).panics = 1 := by
  decide

theorem serve_ignores_regen_flag (c : ResponseCacher) (w : LiveWriter) (m : Bool) :
    ResponseCacher.Serve { c with regen := true } w m = c.Serve w m := rfl

theorem runSeq_regenerating_noop (reqs : List (List WOp × Nat × LiveWriter))
    (st : Store) (k : String) {c : ResponseCacher}
    (h : view st k = some c) (hr : c.regen = true) :
    runSeq reqs st k = (st, 0, 0) := by
  induction reqs with
  | nil => rfl
  | cons r rest ih =>
    obtain ⟨nx, id, w⟩ := r
    rw [runSeq, chainStep_hit nx id st k w h (Or.inr hr), ih]
    rfl

/-- C1, amended: a request that observes (at its status check) a live,
stale, non-regenerating entry marks it regenerating, launches exactly one
asynchronous regeneration and serves the existing stale entry with the
cached marker; a request observing a fresh or already-regenerating entry
serves it marked and launches nothing; and when the N requests arriving
while the entry is stale run serialized (no interleaving inside a request
body), exactly one downstream regeneration is launched among them.
(When the status checks of two requests interleave before the first
`markRegenerating`, each can launch a regeneration — see the
counterexample — so "exactly one" requires the serialization proviso.) -/
theorem c1_stampede_guard_serialized :
    (∀ (next : List WOp) (id : Nat) (st : Store) (k : String) (w : LiveWriter)
        (c : ResponseCacher), view st k = some c → c.fresh = false → c.regen = false →
        (chainStep next id st k w).launches = [(next, id)] ∧
        (chainStep next id st k w).syncInvoked = 0 ∧
        view (chainStep next id st k w).store k = some { c with regen := true } ∧
        (chainStep next id st k w).served = some (c.Serve w true)) ∧
    (∀ (next : List WOp) (id : Nat) (st : Store) (k : String) (w : LiveWriter)
        (c : ResponseCacher), view st k = some c → (c.fresh = true ∨ c.regen = true) →
        (chainStep next id st k w).launches = [] ∧
        (chainStep next id st k w).syncInvoked = 0 ∧
        (chainStep next id st k w).store = st ∧
        (chainStep next id st k w).served = some (c.Serve w true)) ∧
    (∀ (reqs : List (List WOp × Nat × LiveWriter)) (st : Store) (k : String)
        (c : ResponseCacher), view st k = some c → c.fresh = false → c.regen = false →
        reqs ≠ [] → (runSeq reqs st k).2.1 = 0 ∧ (runSeq reqs st k).2.2 = 1) := by
  refine ⟨?_, ?_, ?_⟩
  · intro next id st k w c h hf hr
    rw [chainStep_stale next id st k w h hf hr]
    exact ⟨rfl, rfl, view_swap_self st k _, congrArg some (serve_ignores_regen_flag c w true)⟩
  · intro next id st k w c h hfr
    rw [chainStep_hit next id st k w h hfr]
    exact ⟨rfl, rfl, rfl, rfl⟩
  · intro reqs st k c h hf hr hne
    obtain ⟨⟨nx, id, w⟩, rest, rfl⟩ : ∃ r rest, reqs = r :: rest := by
      cases reqs with
      | nil => exact absurd rfl hne
      | cons r rest => exact ⟨r, rest, rfl⟩
    rw [runSeq, chainStep_stale nx id st k w h hf hr]
    rw [runSeq_regenerating_noop rest _ k (view_swap_self st k _) rfl]
    exact ⟨rfl, rfl⟩

/-- Witness for C1 on a store holding a stale, non-regenerating entry. -/
theorem c1_stampede_guard_serialized_witness :
    (chainStep [] 7 (swap emptyStore "k" { NewResponseCacher 1 with fresh := false })
        "k" w0).launches = [([], 7)] ∧
    (runSeq [([], 7, w0)]
        (swap emptyStore "k" { NewResponseCacher 1 with fresh := false }) "k").2.1 = 0 ∧
    (runSeq [([], 7, w0)]
        (swap emptyStore "k" { NewResponseCacher 1 with fresh := false }) "k").2.2 = 1 :=
  ⟨(c1_stampede_guard_serialized.1 [] 7 _ "k" w0 _
      (view_swap_self emptyStore "k" _) rfl rfl).1,
   (c1_stampede_guard_serialized.2.2 [([], 7, w0)] _ "k" _
      (view_swap_self emptyStore "k" _) rfl rfl (List.cons_ne_nil _ _)).1,
   (c1_stampede_guard_serialized.2.2 [([], 7, w0)] _ "k" _
      (view_swap_self emptyStore "k" _) rfl rfl (List.cons_ne_nil _ _)).2⟩

/-- Counterexample for C1 as stated: the fill performs one downstream
invocation, then the entry goes stale and two concurrent requests both
pass their status checks before either marks the entry regenerating
(`status` holds only a read lock), so both launch regenerations — the
run ends with three downstream invocations where the claim allows two
(the fill plus exactly one stale-window regeneration); no request
panics and all three are served. -/
theorem c1_counterexample :
    (runSys sysInit [0, 0, 0]).invoked = 1 ∧
    (runSys sysInit [0, 0, 0, 3, 3, 1, 2, 1, 1, 2, 2, 4, 5, 1, 2]).invoked = 3 ∧
    (runSys sysInit [0, 0, 0, 3, 3, 1, 2, 1, 1, 2, 2, 4, 5, 1, 2]).panics = 0 ∧
    (runSys sysInit [0, 0, 0, 3, 3, 1, 2, 1, 1, 2, 2, 4, 5, 1, 2]).servedOk = 3 := by
  decide

theorem invFR_swap (st : Store) (k : String) (c : ResponseCacher)
    (hc : c.regen = true → c.fresh = false) (ih : InvFR st) :
    InvFR (swap st k c) := by
  intro x cx hvx hrx
  by_cases hx : x = k
  · subst hx
    rw [view_swap_self] at hvx
    cases Option.some.inj hvx
    exact hc hrx
  · rw [view_swap_ne st k x c hx] at hvx
    exact ih x cx hvx hrx

theorem invFR_swap_captured (st : Store) (k : String) (next : List WOp) (id : Nat)
    (ih : InvFR st) : InvFR (swap st k (runWOps next (NewResponseCacher id))) := by
  refine invFR_swap st k _ (fun hr => ?_) ih
  rw [(runWOps_flags next (NewResponseCacher id)).2.1] at hr
  simp [NewResponseCacher] at hr

/-- C4, amended: every live entry with `regenerating=true` is stale in
every store reachable under the serialized semantics — newly captured
entries are fresh and non-regenerating, `swap` installs such entries,
`markStale` and `kill` preserve the implication, and the serialized
controller applies `markRegenerating` only to entries it just observed
stale.  (`markRegenerating` alone does not preserve the invariant on a
fresh entry, and under interleaving a request that observed a stale entry
can apply it after a concurrent regeneration swapped in a fresh one,
producing a live fresh-and-regenerating entry — see the
counterexample.) -/
theorem c4_regenerating_implies_stale (st : Store) (h : SeqReach st) : InvFR st := by
  induction h with
  | init =>
    intro x cx hvx _
    simp [view, emptyStore] at hvx
  | step_chain next id k w hst ih =>
    rename_i st2
    cases hv : view st2 k with
    | none =>
      rw [chainStep_miss next id st2 k w hv]
      exact invFR_swap_captured st2 k next id ih
    | some c =>
      by_cases hf : c.fresh = false
      · by_cases hr : c.regen = false
        · rw [chainStep_stale next id st2 k w hv hf hr]
          exact invFR_swap st2 k _ (fun _ => hf) ih
        · have hr2 : c.regen = true := by revert hr; cases c.regen <;> simp
          rw [chainStep_hit next id st2 k w hv (Or.inr hr2)]
          exact ih
      · have hf2 : c.fresh = true := by revert hf; cases c.fresh <;> simp
        rw [chainStep_hit next id st2 k w hv (Or.inl hf2)]
        exact ih
  | step_regen_done next id k w hst ih =>
    rename_i st2
    exact invFR_swap_captured st2 k next id ih
  | step_ttl k id hst ih =>
    rename_i st2
    rcases ttlFire_cases st2 k id with heq | ⟨c, hv, hf, hid, heq⟩
    · rw [heq]; exact ih
    · rw [heq]
      exact invFR_swap st2 k _ (fun _ => rfl) ih
  | step_ttd k id hst ih =>
    rename_i st2
    rcases ttdFire_cases st2 k id with heq | ⟨c, hv, hf, hr, hid, heq⟩
    · rw [heq]; exact ih
    · rw [heq]
      intro x cx hvx hrx
      by_cases hx : x = k
      · subst hx
        rw [view_kill_self] at hvx
        exact Option.noConfusion hvx
      · rw [view_kill_ne st2 k x hx] at hvx
        exact ih x cx hvx hrx

/-- The store after a first request filled key `kk` (serialized). -/
def stFillA : Store := (chainStep [] 1 emptyStore "kk" w0).store

/-- The store after the filled entry's TTL fired: the entry is stale. -/
def stStaleA : Store := ttlFire stFillA "kk" 1

/-- The store after a second request marked the stale entry
regenerating. -/
def stRegenA : Store := (chainStep [] 2 stStaleA "kk" w0).store

/-- Witness for C4 at a reachable store holding a regenerating entry. -/
theorem c4_regenerating_implies_stale_witness :
    ({ NewResponseCacher 1 with fresh := false, regen := true } : ResponseCacher).fresh
      = false :=
  c4_regenerating_implies_stale stRegenA
    (SeqReach.step_chain [] 2 "kk" w0
      (SeqReach.step_ttl "kk" 1
        (SeqReach.step_chain [] 1 "kk" w0 SeqReach.init)))
    "kk" { NewResponseCacher 1 with fresh := false, regen := true } (by decide) rfl

/-- Counterexample for C4 as stated: with op-level interleaving, a
request that observed the entry stale-and-not-regenerating executes its
`markRegenerating` after a concurrent regeneration swapped in a fresh
entry, so the machine reaches a store whose live entry has `fresh = true`
and `regen = true` — the invariant fails in a reachable state, and
`markRegenerating` is the operation that broke it. -/
theorem c4_counterexample :
    (kview (runSys sysInit [0, 0, 0, 3, 3, 1, 2, 1, 1, 4, 2]).store).map
      (fun c => (c.fresh, c.regen)) = some (true, true) := by
  decide

/-- C2, amended: a decay timer acts only per its guards *as evaluated at
its status check*: the TTL phase mutates the store only when the entry
exists, is fresh and carries the timer's id (and then it is exactly the
`markStale`), the TTD phase mutates only when the entry exists, is stale,
is not regenerating and carries the timer's id (and then it is exactly
the `kill`); in particular a timer whose id differs from the stored
entry's id at the check never mutates the store when the check and the
action are not interleaved with other operations.  (The check and action
are separate critical sections in the source, so with interleaving a
timer whose check passed can kill an entry that a newer generation
swapped in meanwhile — see the counterexample.) -/
theorem c2_decay_generation_guard :
    (∀ (st : Store) (k : String) (id : Nat),
        (∀ c, view st k = some c → c.id ≠ id) →
        ttlFire st k id = st ∧ ttdFire st k id = st) ∧
    (∀ (st : Store) (k : String) (id : Nat), ttlFire st k id ≠ st →
        ∃ c, view st k = some c ∧ c.fresh = true ∧ c.id = id ∧
          ttlFire st k id = (stale st k).getD st) ∧
    (∀ (st : Store) (k : String) (id : Nat), ttdFire st k id ≠ st →
        ∃ c, view st k = some c ∧ c.fresh = false ∧ c.regen = false ∧ c.id = id ∧
          ttdFire st k id = kill st k) := by
  refine ⟨?_, ?_, ?_⟩
  · intro st k id h
    constructor
    · rcases ttlFire_cases st k id with heq | ⟨c, hv, hf, hid, heq⟩
      · exact heq
      · exact absurd hid (h c hv)
    · rcases ttdFire_cases st k id with heq | ⟨c, hv, hf, hr, hid, heq⟩
      · exact heq
      · exact absurd hid (h c hv)
  · intro st k id h
    rcases ttlFire_cases st k id with heq | ⟨c, hv, hf, hid, heq⟩
    · exact absurd heq h
    · exact ⟨c, hv, hf, hid, by rw [heq, stale_of_view_some hv]; rfl⟩
  · intro st k id h
    rcases ttdFire_cases st k id with heq | ⟨c, hv, hf, hr, hid, heq⟩
    · exact absurd heq h
    · exact ⟨c, hv, hf, hr, hid, heq⟩

/-- Witness for C2: on concrete stores, a mismatched timer is a no-op,
the TTL phase acts as `markStale` on a matching fresh entry, and the TTD
phase acts as `kill` on a matching stale entry. -/
theorem c2_decay_generation_guard_witness :
    (ttlFire stFillA "kk" 9 = stFillA ∧ ttdFire stFillA "kk" 9 = stFillA) ∧
    (∃ c, view stFillA "kk" = some c ∧ c.fresh = true ∧ c.id = 1 ∧
      ttlFire stFillA "kk" 1 = (stale stFillA "kk").getD stFillA) ∧
    (∃ c, view stStaleA "kk" = some c ∧ c.fresh = false ∧ c.regen = false ∧ c.id = 1 ∧
      ttdFire stStaleA "kk" 1 = kill stStaleA "kk") := by
  refine ⟨c2_decay_generation_guard.1 stFillA "kk" 9 ?_,
    c2_decay_generation_guard.2.1 stFillA "kk" 1 ?_,
    c2_decay_generation_guard.2.2 stStaleA "kk" 1 ?_⟩
  · intro c hc
    rw [show view stFillA "kk" = some (NewResponseCacher 1) from by decide] at hc
    cases Option.some.inj hc
    decide
  · intro h
    have h2 : view (ttlFire stFillA "kk" 1) "kk" = view stFillA "kk" :=
      congrArg (fun s => view s "kk") h
    rw [show view (ttlFire stFillA "kk" 1) "kk" =
          some { NewResponseCacher 1 with fresh := false } from by decide,
        show view stFillA "kk" = some (NewResponseCacher 1) from by decide] at h2
    exact absurd (Option.some.inj h2) (by decide)
  · intro h
    have h2 : view (ttdFire stStaleA "kk" 1) "kk" = view stStaleA "kk" :=
      congrArg (fun s => view s "kk") h
    rw [show view (ttdFire stStaleA "kk" 1) "kk" = none from by decide,
        show view stStaleA "kk" =
          some { NewResponseCacher 1 with fresh := false } from by decide] at h2
    exact Option.noConfusion h2

/-- Counterexample for C2 as stated: a TTD check of the generation-1
timer passes (entry stale, not regenerating, id 1); before its `kill`
runs, a request marks the entry regenerating, launches a regeneration
and that regeneration swaps in the fresh generation-2 entry; the pending
`kill` then executes and removes the generation-2 entry — a decay timer
whose id (1) differs from the currently stored entry's id (2) mutates
the store. -/
theorem c2_counterexample :
    (kview (runSys sysInit [0, 0, 0, 3, 3, 3, 1, 1, 1, 4]).store).map
      (fun c => c.id) = some 2 ∧
    (runSys sysInit [0, 0, 0, 3, 3, 3, 1, 1, 1, 4]).threads[3]? =
      some (.decayT 1 .dTtdAct) ∧
    (runSys sysInit [0, 0, 0, 3, 3, 3, 1, 1, 1, 4, 3]).store = some none := by
  decide

/-- Two stores are observationally equal when every key presents the same
live entry; every store operation of `cache.go` reads or writes the store
only through this view. -/
def viewEq (s1 s2 : Store) : Prop := ∀ x, view s1 x = view s2 x

/-- Observational equality of the fallible operations' results. -/
def optViewEq : Option Store → Option Store → Prop
  | none, none => True
  | some a, some b => viewEq a b
  | _, _ => False

/-- C5, amended: `kill` does not delete the association (it binds the key
to `nil`; see the counterexample), but the killed store is observationally
equal to the truly-deleted one, and every store operation — `status`,
`serve`, `markStale`, `markRegenerating`, `swap`, `kill` — respects
observational equality, so a dead key behaves identically, through every
store operation, to a key that was never cached. -/
theorem c5_kill_observational :
    (∀ (st : Store) (k : String), viewEq (kill st k) (erase st k)) ∧
    (∀ (s1 s2 : Store), viewEq s1 s2 → ∀ (k : String),
        status s1 k = status s2 k ∧
        (∀ (w : LiveWriter) (m : Bool), serve s1 k w m = serve s2 k w m) ∧
        optViewEq (stale s1 k) (stale s2 k) ∧
        optViewEq (regen s1 k) (regen s2 k) ∧
        (∀ c, viewEq (swap s1 k c) (swap s2 k c)) ∧
        viewEq (kill s1 k) (kill s2 k)) := by
  constructor
  · intro st k x
    by_cases hx : x = k
    · simp [view, kill, erase, hx]
    · simp [view, kill, erase, hx]
  · intro s1 s2 h k
    refine ⟨?_, ?_, ?_, ?_, ?_, ?_⟩
    · simp [status, h k]
    · intro w m
      simp [serve, h k]
    · unfold stale
      rw [h k]
      cases hv : view s2 k with
      | none => trivial
      | some c =>
        intro x
        by_cases hx : x = k
        · simp [view, hx]
        · simp only [view, hx, if_false]
          exact h x
    · unfold regen
      rw [h k]
      cases hv : view s2 k with
      | none => trivial
      | some c =>
        intro x
        by_cases hx : x = k
        · simp [view, hx]
        · simp only [view, hx, if_false]
          exact h x
    · intro c x
      by_cases hx : x = k
      · simp [view, swap, hx]
      · simp only [view, swap, hx, if_false]
        exact h x
    · intro x
      by_cases hx : x = k
      · simp [view, kill, hx]
      · simp only [view, kill, hx, if_false]
        exact h x

/-- Witness for C5: on a concrete one-entry store, the killed store and
the truly-deleted store answer `status` and `serve` identically. -/
theorem c5_kill_observational_witness :
    status (kill (swap emptyStore "k" (NewResponseCacher 3)) "k") "k" =
      status (erase (swap emptyStore "k" (NewResponseCacher 3)) "k") "k" ∧
    serve (kill (swap emptyStore "k" (NewResponseCacher 3)) "k") "k" w0 true =
      serve (erase (swap emptyStore "k" (NewResponseCacher 3)) "k") "k" w0 true :=
  ⟨(c5_kill_observational.2 _ _
      (c5_kill_observational.1 (swap emptyStore "k" (NewResponseCacher 3)) "k") "k").1,
   (c5_kill_observational.2 _ _
      (c5_kill_observational.1 (swap emptyStore "k" (NewResponseCacher 3)) "k") "k").2.1
     w0 true⟩

/-- Counterexample for C5 as stated: `kill` binds the key to the nil
entry, so the association is still present in the map, whereas deleting
the association removes it — the two stores differ as maps. -/
theorem c5_counterexample :
    (kill (swap emptyStore "k" (NewResponseCacher 3)) "k") "k" = some none ∧
    (erase (swap emptyStore "k" (NewResponseCacher 3)) "k") "k" = none ∧
    kill (swap emptyStore "k" (NewResponseCacher 3)) "k" ≠
      erase (swap emptyStore "k" (NewResponseCacher 3)) "k" := by
  refine ⟨by decide, by decide, fun h => ?_⟩
  have h2 : (kill (swap emptyStore "k" (NewResponseCacher 3)) "k") "k" =
      (erase (swap emptyStore "k" (NewResponseCacher 3)) "k") "k" :=
    congrArg (fun s => s "k") h
  rw [show (kill (swap emptyStore "k" (NewResponseCacher 3)) "k") "k" = some none
        from by decide,
      show (erase (swap emptyStore "k" (NewResponseCacher 3)) "k") "k" = none
        from by decide] at h2
  exact Option.noConfusion h2

theorem hlookup_hset_self (h : HeaderMap) (n v : String) :
    hlookup (hset h n v) n = some [v] := by
  induction h with
  | nil => simp [hset, hlookup]
  | cons p t ih =>
    by_cases hp : p.1 = n
    · simp [hset, hp, hlookup]
    · simp [hset, hp, hlookup, ih]

theorem hlookup_hset_ne (h : HeaderMap) (n v m : String) (hm : m ≠ n) :
    hlookup (hset h n v) m = hlookup h m := by
  induction h with
  | nil => simp [hset, hlookup, Ne.symm hm]
  | cons p t ih =>
    by_cases hp : p.1 = n
    · simp [hset, hp, hlookup, Ne.symm hm]
    · by_cases hpm : p.1 = m
      · simp [hset, hlookup, hpm, hm]
      · simp [hset, hp, hlookup, hpm, ih]

theorem serveFold_head_absent (l : HeaderMap) (w : LiveWriter) (m : String)
    (hm : ∀ p ∈ l, p.1 ≠ m) :
    hlookup (l.foldl serveHeaderStep w).head m = hlookup w.head m := by
  induction l generalizing w with
  | nil => rfl
  | cons p t ih =>
    have hp : p.1 ≠ m := hm p (by simp)
    have ht : ∀ q ∈ t, q.1 ≠ m := fun q hq => hm q (by simp [hq])
    rw [List.foldl_cons, ih _ ht]
    cases hv : p.2 with
    | nil => simp [serveHeaderStep, hv]
    | cons v vs =>
      simp [serveHeaderStep, hv, LiveWriter.setHeader,
        hlookup_hset_ne w.head p.1 v m (Ne.symm hp)]

theorem serveFold_head_found (l1 l2 : HeaderMap) (w : LiveWriter)
    (m v : String) (vs : List String) (hm : ∀ p ∈ l2, p.1 ≠ m) :
    hlookup ((l1 ++ (m, v :: vs) :: l2).foldl serveHeaderStep w).head m = some [v] := by
  rw [List.foldl_append, List.foldl_cons, serveFold_head_absent l2 _ m hm]
  simp [serveHeaderStep, LiveWriter.setHeader, hlookup_hset_self]

theorem serveFold_codes_body (l : HeaderMap) (w : LiveWriter) :
    (l.foldl serveHeaderStep w).codes = w.codes ∧
    (l.foldl serveHeaderStep w).body = w.body := by
  induction l generalizing w with
  | nil => exact ⟨rfl, rfl⟩
  | cons p t ih =>
    rw [List.foldl_cons]
    have h := ih (serveHeaderStep w p)
    cases hv : p.2 with
    | nil => simpa [serveHeaderStep, hv] using h
    | cons v vs => simpa [serveHeaderStep, hv, LiveWriter.setHeader] using h

theorem serve_head_true (c : ResponseCacher) (w : LiveWriter) :
    (c.Serve w true).head =
      hset (c.Head.foldl serveHeaderStep w).head "X-From-BurstCache" "1" := rfl

theorem serve_head_false (c : ResponseCacher) (w : LiveWriter) :
    (c.Serve w false).head = (c.Head.foldl serveHeaderStep w).head := rfl

theorem serve_codes_val (c : ResponseCacher) (w : LiveWriter) (mark : Bool) :
    (c.Serve w mark).codes = (c.Head.foldl serveHeaderStep w).codes ++ [c.Code] := by
  cases mark <;> rfl

theorem serve_body_val (c : ResponseCacher) (w : LiveWriter) (mark : Bool) :
    (c.Serve w mark).body = (c.Head.foldl serveHeaderStep w).body ++ (c.Body ++ [10]) := by
  cases mark <;> rfl

/-- C6, amended: `Serve` replays the captured status code onto the
target, appends the captured body bytes *followed by a newline*
(`fmt.Fprintln`), sets each captured header that has at least one value
to its *first* captured value only (later values are dropped — see the
counterexample), and when `mark=true` sets the `X-From-BurstCache` header
to exactly the single value `"1"`, regardless of how many headers or
header values were captured. -/
theorem c6_serve_replay :
    (∀ (c : ResponseCacher) (w : LiveWriter) (mark : Bool),
        (c.Serve w mark).codes = w.codes ++ [c.Code] ∧
        (c.Serve w mark).body = w.body ++ c.Body ++ [10]) ∧
    (∀ (c : ResponseCacher) (w : LiveWriter),
        hlookup (c.Serve w true).head "X-From-BurstCache" = some ["1"]) ∧
    (∀ (c : ResponseCacher) (w : LiveWriter) (mark : Bool) (m v : String)
        (vs : List String) (l1 l2 : HeaderMap),
        c.Head = l1 ++ (m, v :: vs) :: l2 →
        (∀ p ∈ l2, p.1 ≠ m) →
        m ≠ "X-From-BurstCache" →
        hlookup (c.Serve w mark).head m = some [v]) := by
  refine ⟨?_, ?_, ?_⟩
  · intro c w mark
    rw [serve_codes_val, serve_body_val,
      (serveFold_codes_body c.Head w).1, (serveFold_codes_body c.Head w).2]
    exact ⟨rfl, (List.append_assoc w.body c.Body [10]).symm⟩
  · intro c w
    rw [serve_head_true, hlookup_hset_self]
  · intro c w mark m v vs l1 l2 hhead hl2 hmark
    cases mark with
    | false =>
      rw [serve_head_false, hhead]
      exact serveFold_head_found l1 l2 w m v vs hl2
    | true =>
      rw [serve_head_true, hlookup_hset_ne _ _ _ _ hmark, hhead]
      exact serveFold_head_found l1 l2 w m v vs hl2

/-- A captured response with a two-valued header and body bytes
`[104, 105]`. -/
def rcMulti : ResponseCacher :=
  { NewResponseCacher 1 with Head := [("A", ["v1", "v2"])], Body := [104, 105] }

/-- Witness for C6 on the concrete captured response `rcMulti`. -/
theorem c6_serve_replay_witness :
    ((rcMulti.Serve w0 true).codes = [] ++ [rcMulti.Code] ∧
      (rcMulti.Serve w0 true).body = [] ++ rcMulti.Body ++ [10]) ∧
    hlookup (rcMulti.Serve w0 true).head "X-From-BurstCache" = some ["1"] ∧
    hlookup (rcMulti.Serve w0 true).head "A" = some ["v1"] :=
  ⟨c6_serve_replay.1 rcMulti w0 true,
   c6_serve_replay.2.1 rcMulti w0,
   c6_serve_replay.2.2 rcMulti w0 true "A" "v1" ["v2"] [] []
     (by decide) (by decide) (by decide)⟩

/-- Counterexample for C6 as stated: serving `rcMulti` onto an empty
target writes the body bytes plus a trailing newline, not the captured
bytes exactly, and sets header `A` to its first captured value only, not
the captured value list exactly. -/
theorem c6_counterexample :
    (rcMulti.Serve w0 true).body = [104, 105, 10] ∧
    (rcMulti.Serve w0 true).body ≠ rcMulti.Body ∧
    hlookup (rcMulti.Serve w0 true).head "A" = some ["v1"] ∧
    hlookup rcMulti.Head "A" = some ["v1", "v2"] := by
  decide

theorem runWOps_append (l1 l2 : List WOp) (c : ResponseCacher) :
    runWOps (l1 ++ l2) c = runWOps l2 (runWOps l1 c) := by
  simp [runWOps, List.foldl_append]

theorem runWOps_cons (o : WOp) (l : List WOp) (c : ResponseCacher) :
    runWOps (o :: l) c = runWOps l (applyWOp c o) := rfl

/-- Writer operations that set the recorder's status code, explicitly or
implicitly. -/
def opSetsStatus : WOp → Bool
  | .wHeader _ => true
  | .wWrite _ => true
  | .wFlush => true
  | _ => false

/-- Writer operations that set the status code other than through a body
write. -/
def opExplicitStatus : WOp → Bool
  | .wHeader _ => true
  | .wFlush => true
  | _ => false

theorem runWOps_code_frozen (l : List WOp) (c : ResponseCacher)
    (h : c.wroteHeader = true) :
    (runWOps l c).Code = c.Code ∧ (runWOps l c).wroteHeader = true := by
  induction l generalizing c with
  | nil => exact ⟨rfl, h⟩
  | cons o t ih =>
    have step : (applyWOp c o).Code = c.Code ∧ (applyWOp c o).wroteHeader = true := by
      cases o <;>
        simp [applyWOp, ResponseCacher.write, ResponseCacher.writeHeader,
          ResponseCacher.flush, h]
    have h2 := ih (applyWOp c o) step.2
    simp only [runWOps, List.foldl_cons] at h2 ⊢
    exact ⟨h2.1.trans step.1, h2.2⟩

theorem runWOps_headerOps_frame (l : List WOp) (c : ResponseCacher)
    (h : l.all (fun o => !opSetsStatus o) = true) :
    (runWOps l c).Code = c.Code ∧ (runWOps l c).wroteHeader = c.wroteHeader := by
  induction l generalizing c with
  | nil => exact ⟨rfl, rfl⟩
  | cons o t ih =>
    rw [List.all_cons, Bool.and_eq_true] at h
    have step : (applyWOp c o).Code = c.Code ∧
        (applyWOp c o).wroteHeader = c.wroteHeader := by
      cases o with
      | wSetHeader n v => exact ⟨rfl, rfl⟩
      | wAddHeader n v => exact ⟨rfl, rfl⟩
      | wHeader n => simp [opSetsStatus] at h
      | wWrite bs => simp [opSetsStatus] at h
      | wFlush => simp [opSetsStatus] at h
    have h2 := ih (applyWOp c o) h.2
    simp only [runWOps, List.foldl_cons] at h2 ⊢
    exact ⟨h2.1.trans step.1, h2.2.trans step.2⟩

theorem runWOps_writesOnly (l : List WOp) (c : ResponseCacher)
    (h : l.all (fun o => !opExplicitStatus o) = true)
    (hc : (c.wroteHeader = false ∧ c.Code = 0) ∨
      (c.wroteHeader = true ∧ c.Code = 200)) :
    ((runWOps l c).wroteHeader = false ∧ (runWOps l c).Code = 0) ∨
    ((runWOps l c).wroteHeader = true ∧ (runWOps l c).Code = 200) := by
  induction l generalizing c with
  | nil => exact hc
  | cons o t ih =>
    rw [List.all_cons, Bool.and_eq_true] at h
    have step : ((applyWOp c o).wroteHeader = false ∧ (applyWOp c o).Code = 0) ∨
        ((applyWOp c o).wroteHeader = true ∧ (applyWOp c o).Code = 200) := by
      cases o with
      | wHeader n => simp [opExplicitStatus] at h
      | wFlush => simp [opExplicitStatus] at h
      | wSetHeader n v => exact hc
      | wAddHeader n v => exact hc
      | wWrite bs =>
        rcases hc with ⟨h1, h2⟩ | ⟨h1, h2⟩
        · right
          simp [applyWOp, ResponseCacher.write, ResponseCacher.writeHeader, h1]
        · right
          simp [applyWOp, ResponseCacher.write, h1, h2]
    have h2 := ih (applyWOp c o) h.2 step
    simpa only [runWOps, List.foldl_cons] using h2

/-- C8: over any downstream interaction, the captured status code is the
argument of the first status-setting call — an explicit `WriteHeader(n)`
preceded only by operations that set no status captures `n`, and every
later `WriteHeader` is ignored (the tail `l2` is arbitrary); and a body
write preceded by no explicit header write or flush captures the default
200 at that first body write, later `WriteHeader` calls again being
ignored. -/
theorem c8_first_status_wins :
    (∀ (l1 l2 : List WOp) (n : Int) (id : Nat),
        l1.all (fun o => !opSetsStatus o) = true →
        (runWOps (l1 ++ WOp.wHeader n :: l2) (NewResponseCacher id)).Code = n) ∧
    (∀ (l1 l2 : List WOp) (bs : List Nat) (id : Nat),
        l1.all (fun o => !opExplicitStatus o) = true →
        (runWOps (l1 ++ WOp.wWrite bs :: l2) (NewResponseCacher id)).Code = 200) := by
  constructor
  · intro l1 l2 n id h
    rw [runWOps_append, runWOps_cons]
    have h1 := runWOps_headerOps_frame l1 (NewResponseCacher id) h
    have hwF : (runWOps l1 (NewResponseCacher id)).wroteHeader = false := by
      rw [h1.2]; rfl
    have hstep : (applyWOp (runWOps l1 (NewResponseCacher id)) (WOp.wHeader n)).Code = n ∧
        (applyWOp (runWOps l1 (NewResponseCacher id)) (WOp.wHeader n)).wroteHeader
          = true := by
      constructor
      · simp [applyWOp, ResponseCacher.writeHeader, hwF]
      · simp [applyWOp, ResponseCacher.writeHeader]
    rw [(runWOps_code_frozen l2 _ hstep.2).1, hstep.1]
  · intro l1 l2 bs id h
    rw [runWOps_append, runWOps_cons]
    have h1 := runWOps_writesOnly l1 (NewResponseCacher id) h (Or.inl ⟨rfl, rfl⟩)
    have hstep : (applyWOp (runWOps l1 (NewResponseCacher id)) (WOp.wWrite bs)).Code
          = 200 ∧
        (applyWOp (runWOps l1 (NewResponseCacher id)) (WOp.wWrite bs)).wroteHeader
          = true := by
      rcases h1 with ⟨ha, hb⟩ | ⟨ha, hb⟩
      · constructor <;>
          simp [applyWOp, ResponseCacher.write, ResponseCacher.writeHeader, ha]
      · constructor <;> simp [applyWOp, ResponseCacher.write, ha, hb]
    rw [(runWOps_code_frozen l2 _ hstep.2).1, hstep.1]

/-- Witness for C8 on concrete operation sequences. -/
theorem c8_first_status_wins_witness :
    (runWOps ([WOp.wSetHeader "A" "x"] ++ WOp.wHeader 404 :: [WOp.wHeader 500])
        (NewResponseCacher 1)).Code = 404 ∧
    (runWOps ([WOp.wWrite [1]] ++ WOp.wWrite [2] :: [WOp.wHeader 500])
        (NewResponseCacher 1)).Code = 200 :=
  ⟨c8_first_status_wins.1 [WOp.wSetHeader "A" "x"] [WOp.wHeader 500] 404 1 (by decide),
   c8_first_status_wins.2 [WOp.wWrite [1]] [WOp.wHeader 500] [2] 1 (by decide)⟩

theorem write_always_appends (c : ResponseCacher) (bs : List Nat) :
    (c.write bs).1.Body = c.Body ++ bs ∧ (c.write bs).2 = bs.length := by
  cases hw : c.wroteHeader <;>
    simp [ResponseCacher.write, ResponseCacher.writeHeader, hw]

/-- C9: `Flush` sets the `Done` flag and does not block further writes —
any later `Write`, even after more operations, still appends its bytes to
the captured body and reports the full byte count — while leaving the
captured headers and body unchanged, and the captured status code
unchanged whenever one was captured (when nothing was written yet there
is no previously captured code and `Flush` records the implicit 200). -/
theorem c9_flush_frame :
    ∀ (c : ResponseCacher) (bs : List Nat) (l : List WOp),
      c.flush.Done = true ∧
      c.flush.Head = c.Head ∧
      c.flush.Body = c.Body ∧
      (c.wroteHeader = true → c.flush.Code = c.Code) ∧
      ((c.flush.write bs).1.Body = c.Body ++ bs ∧ (c.flush.write bs).2 = bs.length) ∧
      (((runWOps l c.flush).write bs).1.Body = (runWOps l c.flush).Body ++ bs ∧
        ((runWOps l c.flush).write bs).2 = bs.length) := by
  intro c bs l
  have hflush : c.flush.Done = true ∧ c.flush.Head = c.Head ∧ c.flush.Body = c.Body := by
    cases hw : c.wroteHeader <;>
      simp [ResponseCacher.flush, ResponseCacher.writeHeader, hw]
  refine ⟨hflush.1, hflush.2.1, hflush.2.2, ?_, ?_, write_always_appends _ bs⟩
  · intro hw
    simp [ResponseCacher.flush, hw]
  · have h := write_always_appends c.flush bs
    rw [hflush.2.2] at h
    exact h

/-- A recorder that has already captured a status code. -/
def rcWrote : ResponseCacher :=
  { NewResponseCacher 9 with wroteHeader := true, Code := 404 }

/-- Witness for C9 on the concrete recorder `rcWrote`. -/
theorem c9_flush_frame_witness :
    rcWrote.flush.Done = true ∧ rcWrote.flush.Code = 404 ∧
    ((rcWrote.flush.write [1, 2]).1.Body = [] ++ [1, 2] ∧
      (rcWrote.flush.write [1, 2]).2 = 2) :=
  ⟨(c9_flush_frame rcWrote [1, 2] []).1,
   (c9_flush_frame rcWrote [1, 2] []).2.2.2.1 rfl,
   (c9_flush_frame rcWrote [1, 2] []).2.2.2.2.1⟩
